import Mathlib

/-!
Verification development for the auto-pros appointment hub.

The repository is a role-based appointment scheduling application.  Its
core logic lives in three places:

* `src/components/technician/TechnicianDashboard.tsx` — the customer
  booking flows (an auto-approval flow with a slot-availability check and
  a 30-minute delay, plus an iterative slot resolver
  `findAvailableTimeSlot`, and a second, simpler flow that books directly
  into `pending` status), and the technician job dashboard.
* `src/components/admin/AppointmentManagement.tsx` — admin approval,
  rejection, technician assignment (creating task rows) and completion
  (with a cascading task-completion write).
* an SQL migration declaring the `appointment_status` enum
  (`pending, approved, rejected, in_progress, completed`), the
  `appointments` and `tasks` tables.

This file shallowly embeds those operations.  Times are embedded
structurally: the source represents a 12-hour time as the string
`"H:MM AM"` / `"H:MM PM"` and immediately splits it into hour, minute and
period; the embedding carries the three split fields directly
(`Time12`) and re-renders strings exactly where the source builds them
with template literals.  The hosted data store is embedded as an explicit
`Store` value (lists of appointment and task rows); each supabase call
becomes a pure store transformation, applied in the order the source
awaits them.
-/

/-- The AM/PM period of a 12-hour clock time. -/
inductive Meridiem
  | am
  | pm
deriving DecidableEq

/-- Parsed form of the 12-hour display string `"H:MM AM"` / `"H:MM PM"`
used throughout `TechnicianDashboard.tsx` (the source splits the string
on a space and then on a colon; this structure holds the split fields). -/
structure Time12 where
  hour : Nat
  minute : Nat
  period : Meridiem
deriving DecidableEq

/-- A 24-hour time at the granularity the database column stores:
hour and minute, with seconds fixed at zero. -/
structure Time24 where
  hour : Nat
  minute : Nat
deriving DecidableEq

/-- Embedding of the JavaScript `s.padStart(2, char0)` used on hour and
minute strings. -/
def padStart2 (s : String) : String :=
  if s.length ≥ 2 then s else if s.length = 1 then "0" ++ s else "00"

/-- The 12-to-24-hour arithmetic of `convertTimeToDBFormat`
(TechnicianDashboard.tsx lines 494-507): a PM hour other than 12 gains
12, hour 12 AM becomes 0, all other hours are unchanged; the minute is
passed through. -/
def to24 (t : Time12) : Time24 :=
  let hour24 :=
    if t.period = .pm ∧ t.hour ≠ 12 then t.hour + 12
    else if t.period = .am ∧ t.hour = 12 then 0
    else t.hour
  ⟨hour24, t.minute⟩

/-- Rendering of a 24-hour time as the database string
`"HH:MM:00"`, mirroring the template literal of
`convertTimeToDBFormat`. -/
def renderTime24 (t : Time24) : String :=
  padStart2 (toString t.hour) ++ ":" ++ padStart2 (toString t.minute) ++ ":00"

/-- `convertTimeToDBFormat` (TechnicianDashboard.tsx lines 494-507):
converts the 12-hour form to the database string `"HH:MM:00"`. -/
def convertTimeToDBFormat (t : Time12) : String :=
  renderTime24 (to24 t)

/-- Rendering of the 12-hour display string `"H:MM AM"` / `"H:MM PM"`,
mirroring the template literal at the end of `calculateDelayedTime`
(hour unpadded, minute padded to two digits). -/
def render12 (t : Time12) : String :=
  toString t.hour ++ ":" ++ padStart2 (toString t.minute) ++ " " ++
    (match t.period with | .am => "AM" | .pm => "PM")

/-- `calculateDelayedTime` (TechnicianDashboard.tsx lines 527-546): adds
30 minutes to a 12-hour time.  The source converts to the 24-hour
numbers (via `convertTimeToDBFormat` and a split, a round trip the
structural embedding short-circuits), adds 30 minutes with carry, and
converts back to display form. -/
def calculateDelayedTime (t : Time12) : Time12 :=
  let db := to24 t
  let m0 := db.minute + 30
  let newMinutes := if m0 ≥ 60 then m0 - 60 else m0
  let newHours := if m0 ≥ 60 then db.hour + 1 else db.hour
  let period : Meridiem := if newHours ≥ 12 then .pm else .am
  let displayHour := if newHours > 12 then newHours - 12 else newHours
  let displayHour := if displayHour = 0 then 12 else displayHour
  ⟨displayHour, newMinutes, period⟩

/-- The `appointment_status` enum of the SQL migration:
`CREATE TYPE appointment_status AS ENUM
('pending', 'approved', 'rejected', 'in_progress', 'completed')`.
The technician dashboard spells the third working state `in-progress`
with a hyphen; it denotes the same state. -/
inductive AppointmentStatus
  | pending
  | approved
  | rejected
  | in_progress
  | completed
deriving DecidableEq

/-- The task status check constraint of the SQL migration:
`status IN ('assigned', 'in_progress', 'completed')`. -/
inductive TaskStatus
  | assigned
  | task_in_progress
  | task_completed
deriving DecidableEq

/-- A row of the `appointments` table (SQL migration), with the columns
the embedded operations read or write.  `appointment_time` is kept as
the string payload the application sends to the store (the auto flow
sends `"HH:MM:00"`, the pending flow sends the raw 12-hour string). -/
structure AppointmentRow where
  id : Nat
  customer_id : String
  vehicle_make : String
  vehicle_model : String
  vehicle_year : Int
  fault_description : String
  reason_description : String
  appointment_date : String
  appointment_time : String
  status : AppointmentStatus
  technician_id : Option String
  admin_notes : Option String
  rejection_reason : Option String
  estimated_duration_hours : Option ℚ
deriving DecidableEq

/-- A row of the `tasks` table (SQL migration).  The admin assignment
parses the duration with `parseFloat`; the embedding carries the parsed
rational. -/
structure TaskRow where
  id : Nat
  appointment_id : Nat
  technician_id : String
  task_description : String
  estimated_duration_hours : ℚ
  status : TaskStatus
deriving DecidableEq

/-- The hosted relational store, embedded as explicit lists of rows. -/
structure Store where
  appointments : List AppointmentRow
  tasks : List TaskRow
deriving DecidableEq

/-- `checkTimeSlotAvailability` (TechnicianDashboard.tsx lines 509-525):
selects the appointments whose `appointment_date` and `appointment_time`
equal the requested slot and whose status is in
`['approved', 'pending']`, and reports the slot available exactly when
that selection is empty. -/
def checkTimeSlotAvailability (appts : List AppointmentRow) (date : String)
    (time : Time12) : Bool :=
  let dbTime := convertTimeToDBFormat time
  (appts.filter (fun a =>
    decide (a.appointment_date = date ∧ a.appointment_time = dbTime ∧
      (a.status = .approved ∨ a.status = .pending)))).length == 0

/-- The probe budget of `findAvailableTimeSlot`:
`const maxAttempts = 10`. -/
def maxAttempts : Nat := 10

/-- The loop of `findAvailableTimeSlot` (TechnicianDashboard.tsx lines
548-577), with the remaining attempt budget as the recursion fuel, so
the initial call passes `maxAttempts`.  The second component counts the
availability probes performed (instrumentation for the bound; the first
component is exactly the source loop).  Each iteration: if the candidate
slot is available, return it together with the flag `attempts === 0`
(here: the fuel is still full); otherwise advance the candidate by
30 minutes, and fail if the advanced candidate reaches hour 17 or the
attempt budget is exhausted. -/
def findAvailableTimeSlotAux (appts : List AppointmentRow) (date : String) :
    Nat → Time12 → Except String (Time12 × Bool) × Nat
  | 0, _ =>
    (.error "Unable to find an available time slot. Please try a different date.", 0)
  | fuel + 1, currentTime =>
    if checkTimeSlotAvailability appts date currentTime then
      (.ok (currentTime, fuel + 1 == maxAttempts), 1)
    else
      let next := calculateDelayedTime currentTime
      if (to24 next).hour ≥ 17 then
        (.error "No available time slots for this date. Please try a different date.", 1)
      else
        let r := findAvailableTimeSlotAux appts date fuel next
        (r.1, r.2 + 1)

/-- `findAvailableTimeSlot` (TechnicianDashboard.tsx lines 548-577):
the resolver result — an available time and whether it is the original
request, or a failure message. -/
def findAvailableTimeSlot (appts : List AppointmentRow) (date : String)
    (originalTime : Time12) : Except String (Time12 × Bool) :=
  (findAvailableTimeSlotAux appts date maxAttempts originalTime).1

/-- Number of availability probes the resolver performs. -/
def findAvailableProbes (appts : List AppointmentRow) (date : String)
    (originalTime : Time12) : Nat :=
  (findAvailableTimeSlotAux appts date maxAttempts originalTime).2

/-- The booking form state (`formData`, TechnicianDashboard.tsx lines
396-405).  The source keeps every field as a string; the embedding
types the time as its parsed 12-hour form and the year as the integer
`parseInt` produces, and keeps the remaining fields as strings. -/
structure BookingForm where
  date : String
  time : Time12
  vehicleMake : String
  vehicleModel : String
  vehicleYear : Int
  fault : String
  reason : String
  preferredTechnician : String
deriving DecidableEq

/-- Outcome of the auto-approval booking submission. -/
inductive BookingResult
  | invalid
  | booked (time : Time12) (rescheduled : Bool)
deriving DecidableEq

namespace AppointmentBookingAuto

/-- `validateForm` of the auto-approval booking component
(TechnicianDashboard.tsx lines 450-492): all fields required, fault at
most 200 characters, reason at most 500 characters, year between 1900
and two years past the current year (the source reads the clock; the
embedding takes the current year as an argument). -/
def validateForm (currentYear : Int) (f : BookingForm) : Bool :=
  decide (f.date ≠ "" ∧ f.vehicleMake ≠ "" ∧ f.vehicleModel ≠ "" ∧
    f.fault ≠ "" ∧ f.reason ≠ "" ∧
    f.fault.length ≤ 200 ∧ f.reason.length ≤ 500 ∧
    1900 ≤ f.vehicleYear ∧ f.vehicleYear ≤ currentYear + 2)

/-- `handleSubmit` of the auto-approval booking component
(TechnicianDashboard.tsx lines 579-666).  After validation it checks the
requested slot once; if unavailable it delays the time by 30 minutes
(without re-checking) and sets the admin note; it then inserts one
appointment row with status `approved`, the converted time, and no
technician.  `newId` stands for the `gen_random_uuid()` primary key the
store generates. -/
def handleSubmit (s : Store) (currentYear : Int) (userId : String)
    (newId : Nat) (f : BookingForm) : BookingResult × Store :=
  if validateForm currentYear f then
    let isAvailable := checkTimeSlotAvailability s.appointments f.date f.time
    let finalTime := if isAvailable then f.time else calculateDelayedTime f.time
    let adminNotes :=
      if isAvailable then ""
      else "Original requested time: " ++ render12 f.time ++
        ". Automatically rescheduled due to time conflict."
    let dbTime := convertTimeToDBFormat finalTime
    let row : AppointmentRow :=
      { id := newId
        customer_id := userId
        vehicle_make := f.vehicleMake
        vehicle_model := f.vehicleModel
        vehicle_year := f.vehicleYear
        fault_description := f.fault
        reason_description := f.reason
        appointment_date := f.date
        appointment_time := dbTime
        status := .approved
        technician_id := none
        admin_notes := if adminNotes = "" then none else some adminNotes
        rejection_reason := none
        estimated_duration_hours := none }
    (.booked finalTime (!isAvailable), { s with appointments := s.appointments ++ [row] })
  else
    (.invalid, s)

end AppointmentBookingAuto

namespace AppointmentBookingPending

/-- `validateForm` of the pending-mode booking component
(TechnicianDashboard.tsx lines 910-941): all fields required and the two
length limits; this variant has no year validation. -/
def validateForm (f : BookingForm) : Bool :=
  decide (f.date ≠ "" ∧ f.vehicleMake ≠ "" ∧ f.vehicleModel ≠ "" ∧
    f.fault ≠ "" ∧ f.reason ≠ "" ∧
    f.fault.length ≤ 200 ∧ f.reason.length ≤ 500)

/-- `handleSubmit` of the pending-mode booking component
(TechnicianDashboard.tsx lines 943-995): inserts one appointment row
with status `pending` and `appointment_time: formData.time` — the raw
12-hour display string, with no conversion and no availability check. -/
def handleSubmit (s : Store) (userId : String) (newId : Nat)
    (f : BookingForm) : Store :=
  if validateForm f then
    let row : AppointmentRow :=
      { id := newId
        customer_id := userId
        vehicle_make := f.vehicleMake
        vehicle_model := f.vehicleModel
        vehicle_year := f.vehicleYear
        fault_description := f.fault
        reason_description := f.reason
        appointment_date := f.date
        appointment_time := render12 f.time
        status := .pending
        technician_id := none
        admin_notes := none
        rejection_reason := none
        estimated_duration_hours := none }
    { s with appointments := s.appointments ++ [row] }
  else
    s

end AppointmentBookingPending

/-- The optional `additionalData` argument of `updateAppointmentStatus`
(AppointmentManagement.tsx lines 187-220).  Each field is included in
the update only when truthy in JavaScript; the empty string and 0 are
the falsy values these fields take, so they encode an omitted field. -/
structure AdditionalData where
  technicianId : String := ""
  adminNotes : String := ""
  rejectionReason : String := ""
  estimatedDuration : ℚ := 0
deriving DecidableEq

/-- The `updateData` object built by `updateAppointmentStatus`, applied
to one appointment row: the status is always set, and each additional
field is set only when truthy. -/
def applyUpdateData (status : AppointmentStatus) (extra : Option AdditionalData)
    (a : AppointmentRow) : AppointmentRow :=
  let a := { a with status := status }
  match extra with
  | none => a
  | some d =>
    let a := if d.technicianId ≠ "" then { a with technician_id := some d.technicianId } else a
    let a := if d.adminNotes ≠ "" then { a with admin_notes := some d.adminNotes } else a
    let a := if d.rejectionReason ≠ "" then { a with rejection_reason := some d.rejectionReason } else a
    if d.estimatedDuration ≠ 0 then { a with estimated_duration_hours := some d.estimatedDuration } else a

/-- `updateAppointmentStatus` (AppointmentManagement.tsx lines 187-220):
updates the row with the given id with the status and the truthy
additional fields. -/
def updateAppointmentStatus (s : Store) (appointmentId : Nat)
    (status : AppointmentStatus) (extra : Option AdditionalData) : Store :=
  { s with appointments := s.appointments.map (fun a =>
      if a.id = appointmentId then applyUpdateData status extra a else a) }

/-- `handleApprove` (AppointmentManagement.tsx lines 222-228):
sets the status to `approved`. -/
def handleApprove (s : Store) (appointmentId : Nat) : Store :=
  updateAppointmentStatus s appointmentId .approved none

/-- `handleReject` (AppointmentManagement.tsx lines 230-240): prompts
for a reason and, only when the reason is truthy (non-empty; a cancelled
prompt is encoded here as the empty string as well), sets the status to
`rejected` with the rejection reason. -/
def handleReject (s : Store) (appointmentId : Nat) (reason : String) : Store :=
  if reason ≠ "" then
    updateAppointmentStatus s appointmentId .rejected (some { rejectionReason := reason })
  else
    s

/-- The assignment dialog state (`assignmentData`,
AppointmentManagement.tsx lines 92-97).  The source keeps `duration` as
a string parsed by `parseFloat`; `none` models the empty field, `some q`
a field holding the number `q`. -/
structure AssignmentData where
  technician : String
  tasks : String
  duration : Option ℚ
  adminNotes : String
deriving DecidableEq

/-- `handleAssignTechnician` (AppointmentManagement.tsx lines 242-293):
if any of the selected appointment, technician, task description or
duration is missing, report an error and write nothing; otherwise update
the appointment to `approved` with the technician, notes and duration,
then insert exactly one task row with status `assigned`.  `newTaskId`
stands for the generated task primary key. -/
def handleAssignTechnician (s : Store) (newTaskId : Nat)
    (selected : Option Nat) (ad : AssignmentData) : Store :=
  match selected, ad.duration with
  | some appointmentId, some estimatedHours =>
    if ad.technician = "" ∨ ad.tasks = "" then s
    else
      let s1 := updateAppointmentStatus s appointmentId .approved
        (some { technicianId := ad.technician, adminNotes := ad.adminNotes,
                estimatedDuration := estimatedHours })
      { s1 with tasks := s1.tasks ++
          [{ id := newTaskId
             appointment_id := appointmentId
             technician_id := ad.technician
             task_description := ad.tasks
             estimated_duration_hours := estimatedHours
             status := .assigned }] }
  | _, _ => s

/-- The fetched appointment object `handleComplete` receives: its id and
the task rows joined to it by `fetchAppointments`
(AppointmentManagement.tsx lines 126-162). -/
structure AppointmentView where
  id : Nat
  tasks : List TaskRow
deriving DecidableEq

/-- The snapshot the admin UI holds for an appointment: the row id
together with the tasks whose `appointment_id` matches, as the fetch
joins them. -/
def fetchView (s : Store) (appointmentId : Nat) : AppointmentView :=
  { id := appointmentId
    tasks := s.tasks.filter (fun t => t.appointment_id == appointmentId) }

/-- The first of the two writes of `handleComplete`
(AppointmentManagement.tsx line 298): the appointment status update,
before any task is touched. -/
def handleCompleteApptStep (s : Store) (apt : AppointmentView) : Store :=
  updateAppointmentStatus s apt.id .completed none

/-- The second write of `handleComplete` (AppointmentManagement.tsx
lines 301-308): only when the snapshot holds at least one task, set
every task row with this `appointment_id` to `completed`. -/
def handleCompleteTaskStep (s : Store) (apt : AppointmentView) : Store :=
  if apt.tasks.length > 0 then
    { s with tasks := s.tasks.map (fun t =>
        if t.appointment_id = apt.id then { t with status := .task_completed } else t) }
  else
    s

/-- `handleComplete` (AppointmentManagement.tsx lines 295-322): the
appointment status write followed by the conditional task cascade, as
two sequential store writes. -/
def handleComplete (s : Store) (apt : AppointmentView) : Store :=
  handleCompleteTaskStep (handleCompleteApptStep s apt) apt

/-- The sequence of store states `handleComplete` moves through: the
initial state, the state after the appointment status write, and the
state after the task cascade. -/
def handleCompleteStates (s : Store) (apt : AppointmentView) : List Store :=
  [s, handleCompleteApptStep s apt, handleComplete s apt]

/-- `updateAssignmentStatus` of the technician dashboard
(TechnicianDashboard.tsx lines 52-71): rewrites the status of the
appointment with the given id (the source also merges timestamp fields
the embedding does not carry). -/
def updateAssignmentStatus (s : Store) (assignmentId : Nat)
    (status : AppointmentStatus) : Store :=
  { s with appointments := s.appointments.map (fun a =>
      if a.id = assignmentId then { a with status := status } else a) }

/-- `handleStartJob` (TechnicianDashboard.tsx lines 73-81): the assigned
technician moves the job to the working state (spelled `in-progress` in
the dashboard). -/
def handleStartJob (s : Store) (assignmentId : Nat) : Store :=
  updateAssignmentStatus s assignmentId .in_progress

/-- `handleCompleteJob` (TechnicianDashboard.tsx lines 83-91): the
assigned technician marks the job completed. -/
def handleCompleteJob (s : Store) (assignmentId : Nat) : Store :=
  updateAssignmentStatus s assignmentId .completed

/-- One user-triggerable operation of the system, as a step relation on
the store.  Each constructor pairs a handler with the condition under
which the UI renders the button that invokes it: approve, assign and
reject render only on `pending` rows (AppointmentManagement.tsx line
529), the admin complete button only on `approved` rows (line 620), the
technician start button only on `approved` jobs (TechnicianDashboard.tsx
line 338) and the technician complete button only on in-progress jobs
(line 349).  The booking steps carry the freshness of the generated
primary key. -/
inductive Step : Store → Store → Prop where
  | autoBook (s : Store) (currentYear : Int) (userId : String) (newId : Nat)
      (f : BookingForm) (hfresh : ∀ a ∈ s.appointments, a.id ≠ newId) :
      Step s (AppointmentBookingAuto.handleSubmit s currentYear userId newId f).2
  | pendingBook (s : Store) (userId : String) (newId : Nat) (f : BookingForm)
      (hfresh : ∀ a ∈ s.appointments, a.id ≠ newId) :
      Step s (AppointmentBookingPending.handleSubmit s userId newId f)
  | approve (s : Store) (appointmentId : Nat)
      (hg : ∀ a ∈ s.appointments, a.id = appointmentId → a.status = .pending) :
      Step s (handleApprove s appointmentId)
  | reject (s : Store) (appointmentId : Nat) (reason : String)
      (hg : ∀ a ∈ s.appointments, a.id = appointmentId → a.status = .pending) :
      Step s (handleReject s appointmentId reason)
  | assign (s : Store) (newTaskId : Nat) (selected : Option Nat) (ad : AssignmentData)
      (hg : ∀ appointmentId, selected = some appointmentId →
        ∀ a ∈ s.appointments, a.id = appointmentId → a.status = .pending) :
      Step s (handleAssignTechnician s newTaskId selected ad)
  | adminComplete (s : Store) (appointmentId : Nat)
      (hg : ∀ a ∈ s.appointments, a.id = appointmentId → a.status = .approved) :
      Step s (handleComplete s (fetchView s appointmentId))
  | techStart (s : Store) (assignmentId : Nat)
      (hg : ∀ a ∈ s.appointments, a.id = assignmentId → a.status = .approved) :
      Step s (handleStartJob s assignmentId)
  | techComplete (s : Store) (assignmentId : Nat)
      (hg : ∀ a ∈ s.appointments, a.id = assignmentId → a.status = .in_progress) :
      Step s (handleCompleteJob s assignmentId)

/-- Modelled from the spec: the directed graph of section 4.4 —
`pending → approved`, `pending → rejected`, `approved → in_progress`,
`approved → completed`, `in_progress → completed`.  This is the
comparison target for the state-machine claim, not a source
definition. -/
def specEdge (x y : AppointmentStatus) : Prop :=
  (x = .pending ∧ y = .approved) ∨ (x = .pending ∧ y = .rejected) ∨
  (x = .approved ∧ y = .in_progress) ∨ (x = .approved ∧ y = .completed) ∨
  (x = .in_progress ∧ y = .completed)

/-- The number of pending-or-approved appointments holding a given slot
(the quantity whose emptiness `checkTimeSlotAvailability` tests). -/
def slotOccupancy (appts : List AppointmentRow) (date : String) (time : Time12) : Nat :=
  (appts.filter (fun a =>
    decide (a.appointment_date = date ∧
      a.appointment_time = convertTimeToDBFormat time ∧
      (a.status = .approved ∨ a.status = .pending)))).length

theorem checkTimeSlotAvailability_eq_occupancy (appts : List AppointmentRow)
    (date : String) (time : Time12) :
    checkTimeSlotAvailability appts date time = (slotOccupancy appts date time == 0) := rfl

theorem applyUpdateData_id (status : AppointmentStatus) (extra : Option AdditionalData)
    (a : AppointmentRow) : (applyUpdateData status extra a).id = a.id := by
  unfold applyUpdateData
  cases extra with
  | none => rfl
  | some d =>
    dsimp only
    split <;> split <;> split <;> split <;> rfl

theorem applyUpdateData_status (status : AppointmentStatus) (extra : Option AdditionalData)
    (a : AppointmentRow) : (applyUpdateData status extra a).status = status := by
  unfold applyUpdateData
  cases extra with
  | none => rfl
  | some d =>
    dsimp only
    split <;> split <;> split <;> split <;> rfl

theorem updateAppointmentStatus_tasks (s : Store) (appointmentId : Nat)
    (status : AppointmentStatus) (extra : Option AdditionalData) :
    (updateAppointmentStatus s appointmentId status extra).tasks = s.tasks := rfl

theorem handleCompleteTaskStep_appointments (s : Store) (apt : AppointmentView) :
    (handleCompleteTaskStep s apt).appointments = s.appointments := by
  unfold handleCompleteTaskStep
  split <;> rfl

/-- If the requested slot is available, the resolver loop accepts it at
the first probe, whatever fuel remains. -/
theorem findAvailableTimeSlotAux_of_available (appts : List AppointmentRow)
    (date : String) (fuel : Nat) (t : Time12)
    (h : checkTimeSlotAvailability appts date t = true) :
    (findAvailableTimeSlotAux appts date (fuel + 1) t).1 = .ok (t, fuel + 1 == maxAttempts) := by
  unfold findAvailableTimeSlotAux
  simp [h]

/-- If the requested slot is available, the resolver returns it marked
as the original time. -/
theorem findAvailableTimeSlot_of_available (appts : List AppointmentRow)
    (date : String) (t : Time12)
    (h : checkTimeSlotAvailability appts date t = true) :
    findAvailableTimeSlot appts date t = .ok (t, true) := by
  unfold findAvailableTimeSlot maxAttempts
  have := findAvailableTimeSlotAux_of_available appts date 9 t h
  simpa [maxAttempts] using this

/-- The probe counter never exceeds the fuel. -/
theorem findAvailableTimeSlotAux_probes_le (appts : List AppointmentRow) (date : String) :
    ∀ fuel t, (findAvailableTimeSlotAux appts date fuel t).2 ≤ fuel := by
  intro fuel
  induction fuel with
  | zero => intro t; simp [findAvailableTimeSlotAux]
  | succ n ih =>
    intro t
    unfold findAvailableTimeSlotAux
    by_cases h : checkTimeSlotAvailability appts date t = true
    · simp [h]
    · simp only [Bool.not_eq_true] at h
      by_cases h2 : 17 ≤ (to24 (calculateDelayedTime t)).hour
      · simp [h, h2]
      · simp [h, h2]
        exact ih _

/-- If the resolver fails, the originally requested slot was not
available. -/
theorem findAvailableTimeSlot_error_imp_unavailable (appts : List AppointmentRow)
    (date : String) (t : Time12) (e : String)
    (h : findAvailableTimeSlot appts date t = .error e) :
    checkTimeSlotAvailability appts date t = false := by
  by_contra hc
  simp only [Bool.not_eq_false] at hc
  rw [findAvailableTimeSlot_of_available appts date t hc] at h
  exact Except.noConfusion h

/-- C3: For every date d and time t, the slot availability check returns
false if and only if at least one existing appointment has exactly the
pair (d, t) — with t compared in its stored 24-hour form — and status
pending or approved; if every appointment at (d, t) is rejected or
completed, the slot is reported available. -/
theorem c3_availability_iff (appts : List AppointmentRow) (d : String) (t : Time12) :
    (checkTimeSlotAvailability appts d t = false ↔
      ∃ a ∈ appts, a.appointment_date = d ∧
        a.appointment_time = convertTimeToDBFormat t ∧
        (a.status = .pending ∨ a.status = .approved)) ∧
    ((∀ a ∈ appts, a.appointment_date = d →
        a.appointment_time = convertTimeToDBFormat t →
        (a.status = .rejected ∨ a.status = .completed)) →
      checkTimeSlotAvailability appts d t = true) := by
  constructor
  · unfold checkTimeSlotAvailability
    simp only [Nat.beq_eq_true_eq, Bool.eq_false_iff, ne_eq, List.length_eq_zero,
      List.filter_eq_nil, decide_eq_true_eq, not_forall]
    constructor
    · rintro ⟨a, ha, hp⟩
      rw [not_not] at hp
      exact ⟨a, ha, hp.1, hp.2.1, hp.2.2.elim (fun h => Or.inr h) (fun h => Or.inl h)⟩
    · rintro ⟨a, ha, hd, ht, hst⟩
      exact ⟨a, ha, by simp [hd, ht, hst.elim (fun h => Or.inr h) (fun h => Or.inl h)]⟩
  · intro hall
    by_contra hc
    simp only [Bool.not_eq_true] at hc
    unfold checkTimeSlotAvailability at hc
    simp only [Nat.beq_eq_true_eq, Bool.eq_false_iff, ne_eq, List.length_eq_zero,
      List.filter_eq_nil, decide_eq_true_eq, not_forall] at hc
    obtain ⟨a, ha, hp⟩ := hc
    rw [not_not] at hp
    have := hall a ha hp.1 hp.2.1
    rcases hp.2.2 with h | h <;> rcases this with h2 | h2 <;> simp [h] at h2

/-- A sample appointment row used by the concrete scenarios below. -/
def apptAt (i : Nat) (d tstr : String) (st : AppointmentStatus) : AppointmentRow :=
  { id := i
    customer_id := "cust"
    vehicle_make := "Toyota"
    vehicle_model := "Camry"
    vehicle_year := 2020
    fault_description := "brakes"
    reason_description := "noise when braking"
    appointment_date := d
    appointment_time := tstr
    status := st
    technician_id := none
    admin_notes := none
    rejection_reason := none
    estimated_duration_hours := none }

/-- A sample, fully filled booking form used by the concrete scenarios
below. -/
def demoForm (t : Time12) : BookingForm :=
  { date := "2026-10-20"
    time := t
    vehicleMake := "Toyota"
    vehicleModel := "Camry"
    vehicleYear := 2020
    fault := "brakes"
    reason := "noise when braking"
    preferredTechnician := "" }

/-- C3 witness: in a store holding one pending appointment at the slot,
the existential of the iff is realized; instantiated through the
theorem. -/
theorem c3_availability_iff_witness :
    ∃ a ∈ [apptAt 1 "2026-10-20" "09:00:00" .pending],
      a.appointment_date = "2026-10-20" ∧
      a.appointment_time = convertTimeToDBFormat ⟨9, 0, .am⟩ ∧
      (a.status = .pending ∨ a.status = .approved) :=
  (c3_availability_iff [apptAt 1 "2026-10-20" "09:00:00" .pending]
    "2026-10-20" ⟨9, 0, .am⟩).1.mp (by decide)

/-- A date fully booked at 5:00 PM: the store scenario for the resolver
boundary. -/
def bookedAt5 : Store := ⟨[apptAt 1 "2026-10-20" "17:00:00" .approved], []⟩

/-- C4: The resolver terminates for every date and requested time: it
performs at most 10 availability probes; once a 30-minute-advanced
candidate reaches hour 17 it aborts with the no-slot failure regardless
of remaining budget; and requesting 5:00 PM when that slot is occupied
fails after a single probe. -/
theorem c4_resolver_bounds :
    (∀ (appts : List AppointmentRow) (d : String) (t : Time12),
      findAvailableProbes appts d t ≤ 10) ∧
    (∀ (appts : List AppointmentRow) (d : String) (fuel : Nat) (t : Time12),
      checkTimeSlotAvailability appts d t = false →
      17 ≤ (to24 (calculateDelayedTime t)).hour →
      (findAvailableTimeSlotAux appts d (fuel + 1) t).1 =
        .error "No available time slots for this date. Please try a different date.") ∧
    (∀ (appts : List AppointmentRow) (d : String),
      checkTimeSlotAvailability appts d ⟨5, 0, .pm⟩ = false →
      findAvailableTimeSlot appts d ⟨5, 0, .pm⟩ =
        .error "No available time slots for this date. Please try a different date." ∧
      findAvailableProbes appts d ⟨5, 0, .pm⟩ = 1) := by
  refine ⟨fun appts d t => findAvailableTimeSlotAux_probes_le appts d 10 t, ?_, ?_⟩
  · intro appts d fuel t h h17
    unfold findAvailableTimeSlotAux
    simp [h, h17]
  · intro appts d h
    have h17 : 17 ≤ (to24 (calculateDelayedTime ⟨5, 0, .pm⟩)).hour := by decide
    constructor
    · show (findAvailableTimeSlotAux appts d (9 + 1) ⟨5, 0, .pm⟩).1 = _
      unfold findAvailableTimeSlotAux
      simp [h, h17]
    · show (findAvailableTimeSlotAux appts d (9 + 1) ⟨5, 0, .pm⟩).2 = 1
      unfold findAvailableTimeSlotAux
      simp [h, h17]

/-- C4 witness: with 5:00 PM occupied by an approved appointment, the
resolver fails with the no-slot message after exactly one probe. -/
theorem c4_resolver_bounds_witness :
    findAvailableTimeSlot bookedAt5.appointments "2026-10-20" ⟨5, 0, .pm⟩ =
      .error "No available time slots for this date. Please try a different date." ∧
    findAvailableProbes bookedAt5.appointments "2026-10-20" ⟨5, 0, .pm⟩ = 1 :=
  c4_resolver_bounds.2.2 bookedAt5.appointments "2026-10-20" (by decide)

/-- C9: The 17:00 ceiling applies only to advanced candidates, never to
the originally requested time: whenever the requested slot is itself
available — with no condition on its hour — the resolver returns it
unchanged, flagged as the original time. -/
theorem c9_ceiling_spares_requested_time (appts : List AppointmentRow)
    (d : String) (t : Time12)
    (h : checkTimeSlotAvailability appts d t = true) :
    findAvailableTimeSlot appts d t = .ok (t, true) :=
  findAvailableTimeSlot_of_available appts d t h

/-- C9 witness: a free 5:00 PM request (hour 17) is accepted at
5:00 PM, not rejected. -/
theorem c9_ceiling_spares_requested_time_witness :
    findAvailableTimeSlot [] "2026-10-20" ⟨5, 0, .pm⟩ = .ok (⟨5, 0, .pm⟩, true) :=
  c9_ceiling_spares_requested_time [] "2026-10-20" ⟨5, 0, .pm⟩ (by decide)

/-- A date with both 1:00 PM and 1:30 PM already approved: the scenario
in which the single-delay booking double-books. -/
def doubleBookedStore : Store :=
  ⟨[apptAt 1 "2026-10-20" "13:00:00" .approved,
    apptAt 2 "2026-10-20" "13:30:00" .approved], []⟩

/-- C1 counterexample: with 1:00 PM and 1:30 PM both occupied by
approved appointments, the auto-approval booking of 1:00 PM succeeds at
1:30 PM, leaving two approved appointments in the 1:30 PM slot — the
created appointment occupies a slot the Availability Checker reports as
taken, so the booking does not re-check after advancing. -/
theorem c1_counterexample :
    (AppointmentBookingAuto.handleSubmit doubleBookedStore 2026 "cust" 3
      (demoForm ⟨1, 0, .pm⟩)).1 = .booked ⟨1, 30, .pm⟩ true ∧
    slotOccupancy (AppointmentBookingAuto.handleSubmit doubleBookedStore 2026 "cust" 3
      (demoForm ⟨1, 0, .pm⟩)).2.appointments "2026-10-20" ⟨1, 30, .pm⟩ = 2 ∧
    checkTimeSlotAvailability (AppointmentBookingAuto.handleSubmit doubleBookedStore 2026
      "cust" 3 (demoForm ⟨1, 0, .pm⟩)).2.appointments "2026-10-20" ⟨1, 30, .pm⟩ = false := by
  refine ⟨by decide, by decide, by decide⟩

/-- C1 amended: on a conflict the auto-approval booking advances the
requested time once by 30 minutes and books that slot with no further
availability check — the occupancy of the delayed slot always grows by
one, so if the delayed slot was already occupied the result is a
double booking. -/
theorem c1_single_delay_no_recheck (s : Store) (currentYear : Int)
    (userId : String) (newId : Nat) (f : BookingForm)
    (hv : AppointmentBookingAuto.validateForm currentYear f = true)
    (hocc : checkTimeSlotAvailability s.appointments f.date f.time = false) :
    (AppointmentBookingAuto.handleSubmit s currentYear userId newId f).1 =
      .booked (calculateDelayedTime f.time) true ∧
    slotOccupancy (AppointmentBookingAuto.handleSubmit s currentYear userId newId f).2.appointments
        f.date (calculateDelayedTime f.time) =
      slotOccupancy s.appointments f.date (calculateDelayedTime f.time) + 1 := by
  unfold AppointmentBookingAuto.handleSubmit
  simp [hv, hocc, slotOccupancy, List.filter_append]

/-- C1 witness: 1:00 PM occupied, 1:30 PM free — the booking lands on
1:30 PM and raises its occupancy from 0 to 1. -/
theorem c1_single_delay_no_recheck_witness :
    (AppointmentBookingAuto.handleSubmit ⟨[apptAt 1 "2026-10-20" "13:00:00" .approved], []⟩
      2026 "cust" 2 (demoForm ⟨1, 0, .pm⟩)).1 = .booked (calculateDelayedTime ⟨1, 0, .pm⟩) true ∧
    slotOccupancy (AppointmentBookingAuto.handleSubmit
        ⟨[apptAt 1 "2026-10-20" "13:00:00" .approved], []⟩ 2026 "cust" 2
        (demoForm ⟨1, 0, .pm⟩)).2.appointments "2026-10-20" (calculateDelayedTime ⟨1, 0, .pm⟩) =
      slotOccupancy [apptAt 1 "2026-10-20" "13:00:00" .approved] "2026-10-20"
        (calculateDelayedTime ⟨1, 0, .pm⟩) + 1 :=
  c1_single_delay_no_recheck ⟨[apptAt 1 "2026-10-20" "13:00:00" .approved], []⟩
    2026 "cust" 2 (demoForm ⟨1, 0, .pm⟩) (by decide) (by decide)

/-- C2 counterexample: with 5:00 PM occupied, the resolver reports
no slot available, yet the auto-approval booking still succeeds and
creates an appointment row (at 5:30 PM, past the ceiling) — the booking
neither fails nor leaves the store unchanged. -/
theorem c2_counterexample :
    findAvailableTimeSlot bookedAt5.appointments "2026-10-20" ⟨5, 0, .pm⟩ =
      .error "No available time slots for this date. Please try a different date." ∧
    (AppointmentBookingAuto.handleSubmit bookedAt5 2026 "cust" 2
      (demoForm ⟨5, 0, .pm⟩)).1 = .booked ⟨5, 30, .pm⟩ true ∧
    (AppointmentBookingAuto.handleSubmit bookedAt5 2026 "cust" 2
        (demoForm ⟨5, 0, .pm⟩)).2.appointments.length =
      bookedAt5.appointments.length + 1 :=
  ⟨by rfl, by decide, by decide⟩

/-- C2 amended: the auto-approval booking never consults the resolver:
even on inputs where `findAvailableTimeSlot` fails with no slot
available, the booking succeeds at the once-delayed time and appends an
appointment row. -/
theorem c2_booking_ignores_resolver_failure (s : Store) (currentYear : Int)
    (userId : String) (newId : Nat) (f : BookingForm) (e : String)
    (hv : AppointmentBookingAuto.validateForm currentYear f = true)
    (hres : findAvailableTimeSlot s.appointments f.date f.time = .error e) :
    (AppointmentBookingAuto.handleSubmit s currentYear userId newId f).1 =
      .booked (calculateDelayedTime f.time) true ∧
    (AppointmentBookingAuto.handleSubmit s currentYear userId newId f).2.appointments.length =
      s.appointments.length + 1 := by
  have hocc : checkTimeSlotAvailability s.appointments f.date f.time = false :=
    findAvailableTimeSlot_error_imp_unavailable s.appointments f.date f.time e hres
  unfold AppointmentBookingAuto.handleSubmit
  simp [hv, hocc]

/-- C2 witness: the concrete 5:00 PM scenario run through the amended
theorem. -/
theorem c2_booking_ignores_resolver_failure_witness :
    (AppointmentBookingAuto.handleSubmit bookedAt5 2026 "cust" 2
      (demoForm ⟨5, 0, .pm⟩)).1 = .booked (calculateDelayedTime ⟨5, 0, .pm⟩) true ∧
    (AppointmentBookingAuto.handleSubmit bookedAt5 2026 "cust" 2
        (demoForm ⟨5, 0, .pm⟩)).2.appointments.length =
      bookedAt5.appointments.length + 1 :=
  c2_booking_ignores_resolver_failure bookedAt5 2026 "cust" 2 (demoForm ⟨5, 0, .pm⟩)
    "No available time slots for this date. Please try a different date."
    (by decide) (by rfl)

theorem fetchView_id (s : Store) (appointmentId : Nat) :
    (fetchView s appointmentId).id = appointmentId := rfl

/-- An approved appointment with one assigned task: the completion
scenario. -/
def approvedWithTask : Store :=
  ⟨[apptAt 1 "2026-10-20" "09:00:00" .approved],
   [{ id := 5
      appointment_id := 1
      technician_id := "tech"
      task_description := "fix brakes"
      estimated_duration_hours := 2
      status := .assigned }]⟩

/-- C5 counterexample: the Complete operation is two sequential store
writes, not one atomic write — the state reached after its first write
(a state of the operation trace) has the appointment completed while
its task is still `assigned`. -/
theorem c5_counterexample :
    handleCompleteApptStep approvedWithTask (fetchView approvedWithTask 1) ∈
      handleCompleteStates approvedWithTask (fetchView approvedWithTask 1) ∧
    (∃ a ∈ (handleCompleteApptStep approvedWithTask
        (fetchView approvedWithTask 1)).appointments,
      a.id = 1 ∧ a.status = .completed) ∧
    (∃ t ∈ (handleCompleteApptStep approvedWithTask
        (fetchView approvedWithTask 1)).tasks,
      t.appointment_id = 1 ∧ t.status = .assigned) := by
  refine ⟨by decide, by decide, by decide⟩

/-- C5 amended: once both writes of the Complete operation have been
applied, the cascade invariant holds — the appointment is completed and
every task row linked to it is completed; but the two writes are
separate, so the invariant is established only at the final state of
the trace, not at every state. -/
theorem c5_cascade_after_final_write (s : Store) (appointmentId : Nat) :
    (∀ a ∈ (handleComplete s (fetchView s appointmentId)).appointments,
      a.id = appointmentId → a.status = .completed) ∧
    (∀ t ∈ (handleComplete s (fetchView s appointmentId)).tasks,
      t.appointment_id = appointmentId → t.status = .task_completed) := by
  constructor
  · intro a ha haid
    rw [handleComplete, handleCompleteTaskStep_appointments] at ha
    simp only [handleCompleteApptStep, updateAppointmentStatus, fetchView,
      List.mem_map] at ha
    obtain ⟨a0, ha0, rfl⟩ := ha
    by_cases h : a0.id = appointmentId
    · rw [if_pos h]
      exact applyUpdateData_status _ _ _
    · rw [if_neg h] at haid ⊢
      exact absurd haid h
  · intro t ht htid
    rw [handleComplete] at ht
    unfold handleCompleteTaskStep at ht
    by_cases hn : (fetchView s appointmentId).tasks.length > 0
    · rw [if_pos hn] at ht
      simp only [handleCompleteApptStep, updateAppointmentStatus, fetchView_id,
        List.mem_map] at ht
      obtain ⟨t0, ht0, rfl⟩ := ht
      by_cases h : t0.appointment_id = appointmentId
      · rw [if_pos h]
      · rw [if_neg h] at htid ⊢
        exact absurd htid h
    · rw [if_neg hn] at ht
      simp only [handleCompleteApptStep, updateAppointmentStatus] at ht
      exfalso
      simp only [fetchView, gt_iff_lt, not_lt, Nat.le_zero, List.length_eq_zero,
        List.filter_eq_nil, beq_iff_eq] at hn
      exact hn t ht htid

/-- C5 witness: the amended cascade on the concrete one-task store. -/
theorem c5_cascade_after_final_write_witness :
    (∀ a ∈ (handleComplete approvedWithTask (fetchView approvedWithTask 1)).appointments,
      a.id = 1 → a.status = .completed) ∧
    (∀ t ∈ (handleComplete approvedWithTask (fetchView approvedWithTask 1)).tasks,
      t.appointment_id = 1 → t.status = .task_completed) :=
  c5_cascade_after_final_write approvedWithTask 1

/-- Membership in the appointment list after an admin status update:
each row is either untouched or the targeted row with the new status. -/
theorem updateAppointmentStatus_mem (s : Store) (appointmentId : Nat)
    (st : AppointmentStatus) (extra : Option AdditionalData) (a' : AppointmentRow)
    (ha' : a' ∈ (updateAppointmentStatus s appointmentId st extra).appointments) :
    a' ∈ s.appointments ∨
      ∃ a ∈ s.appointments, a.id = a'.id ∧ a.id = appointmentId ∧ a'.status = st := by
  simp only [updateAppointmentStatus, List.mem_map] at ha'
  obtain ⟨a, ha, rfl⟩ := ha'
  by_cases h : a.id = appointmentId
  · right
    exact ⟨a, ha, by rw [if_pos h, applyUpdateData_id], h,
      by rw [if_pos h, applyUpdateData_status]⟩
  · left
    rw [if_neg h]
    exact ha

/-- Membership in the appointment list after a technician status
update: each row is either untouched or the targeted row with the new
status. -/
theorem updateAssignmentStatus_mem (s : Store) (assignmentId : Nat)
    (st : AppointmentStatus) (a' : AppointmentRow)
    (ha' : a' ∈ (updateAssignmentStatus s assignmentId st).appointments) :
    a' ∈ s.appointments ∨
      ∃ a ∈ s.appointments, a.id = a'.id ∧ a.id = assignmentId ∧ a'.status = st := by
  simp only [updateAssignmentStatus, List.mem_map] at ha'
  obtain ⟨a, ha, rfl⟩ := ha'
  by_cases h : a.id = assignmentId
  · right
    exact ⟨a, ha, by rw [if_pos h], h, by rw [if_pos h]⟩
  · left
    rw [if_neg h]
    exact ha

/-- C6: Every operation of the system keeps each appointment status in
the five-value enum (by the typing of `AppointmentStatus`) and changes
statuses only along the directed graph of the state machine: a step
leaves a row unchanged, moves it along a `specEdge`, or creates a new
row in an initial status (`pending` or `approved`); in particular a row
becomes `rejected` only from `pending`. -/
theorem c6_status_transitions (s s' : Store) (hstep : Step s s') :
    ∀ a' ∈ s'.appointments,
      (∃ a ∈ s.appointments, a.id = a'.id ∧
        (a'.status = a.status ∨
          (specEdge a.status a'.status ∧ (a'.status = .rejected → a.status = .pending)))) ∨
      ((∀ a ∈ s.appointments, a.id ≠ a'.id) ∧
        (a'.status = .pending ∨ a'.status = .approved)) := by
  cases hstep with
  | autoBook currentYear userId newId f hfresh =>
    intro a' ha'
    unfold AppointmentBookingAuto.handleSubmit at ha'
    by_cases hv : AppointmentBookingAuto.validateForm currentYear f = true
    · rw [if_pos hv] at ha'
      simp only [List.mem_append, List.mem_singleton] at ha'
      rcases ha' with h | h
      · exact Or.inl ⟨a', h, rfl, Or.inl rfl⟩
      · subst h
        exact Or.inr ⟨fun a ha => hfresh a ha, Or.inr rfl⟩
    · rw [if_neg hv] at ha'
      exact Or.inl ⟨a', ha', rfl, Or.inl rfl⟩
  | pendingBook userId newId f hfresh =>
    intro a' ha'
    unfold AppointmentBookingPending.handleSubmit at ha'
    by_cases hv : AppointmentBookingPending.validateForm f = true
    · rw [if_pos hv] at ha'
      simp only [List.mem_append, List.mem_singleton] at ha'
      rcases ha' with h | h
      · exact Or.inl ⟨a', h, rfl, Or.inl rfl⟩
      · subst h
        exact Or.inr ⟨fun a ha => hfresh a ha, Or.inl rfl⟩
    · rw [if_neg hv] at ha'
      exact Or.inl ⟨a', ha', rfl, Or.inl rfl⟩
  | approve appointmentId hg =>
    intro a' ha'
    rcases updateAppointmentStatus_mem s appointmentId .approved none a' ha' with
      h | ⟨a, ha, hid, hida, hst⟩
    · exact Or.inl ⟨a', h, rfl, Or.inl rfl⟩
    · have hp := hg a ha hida
      exact Or.inl ⟨a, ha, hid, Or.inr ⟨Or.inl ⟨hp, hst⟩,
        fun hc => by rw [hst] at hc; exact absurd hc (by decide)⟩⟩
  | reject appointmentId reason hg =>
    intro a' ha'
    unfold handleReject at ha'
    by_cases hr : reason ≠ ""
    · rw [if_pos hr] at ha'
      rcases updateAppointmentStatus_mem s appointmentId .rejected _ a' ha' with
        h | ⟨a, ha, hid, hida, hst⟩
      · exact Or.inl ⟨a', h, rfl, Or.inl rfl⟩
      · have hp := hg a ha hida
        exact Or.inl ⟨a, ha, hid, Or.inr ⟨Or.inr (Or.inl ⟨hp, hst⟩), fun _ => hp⟩⟩
    · rw [if_neg hr] at ha'
      exact Or.inl ⟨a', ha', rfl, Or.inl rfl⟩
  | assign newTaskId selected ad hg =>
    intro a' ha'
    unfold handleAssignTechnician at ha'
    cases selected with
    | none =>
      cases hd : ad.duration with
      | none => rw [hd] at ha'; exact Or.inl ⟨a', ha', rfl, Or.inl rfl⟩
      | some q => rw [hd] at ha'; exact Or.inl ⟨a', ha', rfl, Or.inl rfl⟩
    | some appointmentId =>
      cases hd : ad.duration with
      | none => rw [hd] at ha'; exact Or.inl ⟨a', ha', rfl, Or.inl rfl⟩
      | some q =>
        rw [hd] at ha'
        dsimp only at ha'
        by_cases hts : ad.technician = "" ∨ ad.tasks = ""
        · rw [if_pos hts] at ha'
          exact Or.inl ⟨a', ha', rfl, Or.inl rfl⟩
        · rw [if_neg hts] at ha'
          have ha'' : a' ∈ (updateAppointmentStatus s appointmentId .approved
              (some ⟨ad.technician, ad.adminNotes, "", q⟩)).appointments := ha'
          rcases updateAppointmentStatus_mem s appointmentId .approved _ a' ha'' with
            h | ⟨a, ha, hid, hida, hst⟩
          · exact Or.inl ⟨a', h, rfl, Or.inl rfl⟩
          · have hp := hg appointmentId rfl a ha hida
            exact Or.inl ⟨a, ha, hid, Or.inr ⟨Or.inl ⟨hp, hst⟩,
              fun hc => by rw [hst] at hc; exact absurd hc (by decide)⟩⟩
  | adminComplete appointmentId hg =>
    intro a' ha'
    rw [handleComplete, handleCompleteTaskStep_appointments] at ha'
    unfold handleCompleteApptStep at ha'
    rw [fetchView_id] at ha'
    rcases updateAppointmentStatus_mem s appointmentId .completed none a' ha' with
      h | ⟨a, ha, hid, hida, hst⟩
    · exact Or.inl ⟨a', h, rfl, Or.inl rfl⟩
    · have hp := hg a ha hida
      exact Or.inl ⟨a, ha, hid, Or.inr ⟨Or.inr (Or.inr (Or.inr (Or.inl ⟨hp, hst⟩))),
        fun hc => by rw [hst] at hc; exact absurd hc (by decide)⟩⟩
  | techStart assignmentId hg =>
    intro a' ha'
    rcases updateAssignmentStatus_mem s assignmentId .in_progress a'
        (by simpa [handleStartJob] using ha') with
      h | ⟨a, ha, hid, hida, hst⟩
    · exact Or.inl ⟨a', h, rfl, Or.inl rfl⟩
    · have hp := hg a ha hida
      exact Or.inl ⟨a, ha, hid, Or.inr ⟨Or.inr (Or.inr (Or.inl ⟨hp, hst⟩)),
        fun hc => by rw [hst] at hc; exact absurd hc (by decide)⟩⟩
  | techComplete assignmentId hg =>
    intro a' ha'
    rcases updateAssignmentStatus_mem s assignmentId .completed a'
        (by simpa [handleCompleteJob] using ha') with
      h | ⟨a, ha, hid, hida, hst⟩
    · exact Or.inl ⟨a', h, rfl, Or.inl rfl⟩
    · have hp := hg a ha hida
      exact Or.inl ⟨a, ha, hid, Or.inr ⟨Or.inr (Or.inr (Or.inr (Or.inr ⟨hp, hst⟩))),
        fun hc => by rw [hst] at hc; exact absurd hc (by decide)⟩⟩

/-- A store with a single pending appointment, the C6 witness
scenario. -/
def onePendingStore : Store := ⟨[apptAt 1 "2026-10-20" "09:00:00" .pending], []⟩

/-- C6 witness: an admin approval step on a pending appointment, run
through the theorem at the concrete row it produces. -/
theorem c6_status_transitions_witness :
    (∃ a ∈ onePendingStore.appointments,
      a.id = (apptAt 1 "2026-10-20" "09:00:00" .approved).id ∧
      ((apptAt 1 "2026-10-20" "09:00:00" .approved).status = a.status ∨
        (specEdge a.status (apptAt 1 "2026-10-20" "09:00:00" .approved).status ∧
          ((apptAt 1 "2026-10-20" "09:00:00" .approved).status = .rejected →
            a.status = .pending)))) ∨
    ((∀ a ∈ onePendingStore.appointments,
        a.id ≠ (apptAt 1 "2026-10-20" "09:00:00" .approved).id) ∧
      ((apptAt 1 "2026-10-20" "09:00:00" .approved).status = .pending ∨
        (apptAt 1 "2026-10-20" "09:00:00" .approved).status = .approved)) :=
  c6_status_transitions onePendingStore (handleApprove onePendingStore 1)
    (Step.approve onePendingStore 1 (by decide))
    (apptAt 1 "2026-10-20" "09:00:00" .approved) (by decide)

/-- C7 counterexample: in the pending booking mode, a "1:00 PM" booking
stores the raw 12-hour string "1:00 PM" as `appointment_time`, not its
24-hour normalization "13:00:00". -/
theorem c7_counterexample :
    ((AppointmentBookingPending.handleSubmit ⟨[], []⟩ "cust" 1
        (demoForm ⟨1, 0, .pm⟩)).appointments.map (fun a => a.appointment_time)) =
      ["1:00 PM"] ∧
    ("1:00 PM" : String) ≠ "13:00:00" := by
  refine ⟨by decide, by decide⟩

/-- C7 amended: only the auto-approval mode normalizes the booking time
— it stores the 24-hour conversion (PM hours other than 12 gain 12,
12 AM becomes 0, 12 PM stays 12; seconds fixed at zero, so "1:00 PM"
becomes "13:00:00") of the final time; the pending mode stores the raw
12-hour display string unconverted. -/
theorem c7_time_normalization :
    (∀ h m : Nat,
      to24 ⟨h, m, .pm⟩ = ⟨if h = 12 then 12 else h + 12, m⟩ ∧
      to24 ⟨h, m, .am⟩ = ⟨if h = 12 then 0 else h, m⟩) ∧
    convertTimeToDBFormat ⟨1, 0, .pm⟩ = "13:00:00" ∧
    (∀ (s : Store) (currentYear : Int) (userId : String) (newId : Nat) (f : BookingForm),
      AppointmentBookingAuto.validateForm currentYear f = true →
      ∃ r, (AppointmentBookingAuto.handleSubmit s currentYear userId newId f).2.appointments =
          s.appointments ++ [r] ∧
        r.appointment_time = convertTimeToDBFormat
          (if checkTimeSlotAvailability s.appointments f.date f.time then f.time
            else calculateDelayedTime f.time)) ∧
    (∀ (s : Store) (userId : String) (newId : Nat) (f : BookingForm),
      AppointmentBookingPending.validateForm f = true →
      ∃ r, (AppointmentBookingPending.handleSubmit s userId newId f).appointments =
          s.appointments ++ [r] ∧
        r.appointment_time = render12 f.time) := by
  refine ⟨?_, by decide, ?_, ?_⟩
  · intro h m
    constructor
    · by_cases h12 : h = 12 <;> simp [to24, h12]
    · by_cases h12 : h = 12 <;> simp [to24, h12]
  · intro s currentYear userId newId f hv
    unfold AppointmentBookingAuto.handleSubmit
    rw [if_pos hv]
    exact ⟨_, rfl, rfl⟩
  · intro s userId newId f hv
    unfold AppointmentBookingPending.handleSubmit
    rw [if_pos hv]
    exact ⟨_, rfl, rfl⟩

/-- C7 witness: the 1:00 PM conversion and a concrete pending booking,
instantiated through the theorem. -/
theorem c7_time_normalization_witness :
    to24 ⟨1, 0, .pm⟩ = ⟨13, 0⟩ ∧
    (∃ r, (AppointmentBookingPending.handleSubmit ⟨[], []⟩ "cust" 1
        (demoForm ⟨1, 0, .pm⟩)).appointments = [] ++ [r] ∧
      r.appointment_time = render12 ⟨1, 0, .pm⟩) :=
  ⟨(c7_time_normalization.1 1 0).1,
    c7_time_normalization.2.2.2 ⟨[], []⟩ "cust" 1 (demoForm ⟨1, 0, .pm⟩) (by decide)⟩

/-- The later fields of `applyUpdateData` do not disturb the technician
and duration fields it sets. -/
theorem applyUpdateData_fields (st : AppointmentStatus) (d : AdditionalData)
    (a : AppointmentRow) (ht : d.technicianId ≠ "") (hq : d.estimatedDuration ≠ 0) :
    (applyUpdateData st (some d) a).technician_id = some d.technicianId ∧
    (applyUpdateData st (some d) a).estimated_duration_hours = some d.estimatedDuration := by
  unfold applyUpdateData
  dsimp only
  rw [if_pos ht, if_pos hq]
  constructor <;> (split <;> split <;> rfl)

/-- C8: Assigning technician T with a task description and a duration of
2 hours approves the appointment, records the technician and duration on
it, and appends exactly one `assigned` task row with duration 2; with
any required field missing, nothing is written. -/
theorem c8_assign_two_hours (s : Store) (newTaskId : Nat) (appointmentId : Nat)
    (ad : AssignmentData) (hT : ad.technician ≠ "") (htk : ad.tasks ≠ "")
    (hd : ad.duration = some 2) :
    ((handleAssignTechnician s newTaskId (some appointmentId) ad).tasks =
      s.tasks ++ [{ id := newTaskId
                    appointment_id := appointmentId
                    technician_id := ad.technician
                    task_description := ad.tasks
                    estimated_duration_hours := 2
                    status := .assigned }]) ∧
    (∀ a ∈ (handleAssignTechnician s newTaskId (some appointmentId) ad).appointments,
      a.id = appointmentId →
        a.status = .approved ∧ a.technician_id = some ad.technician ∧
          a.estimated_duration_hours = some 2) ∧
    (∀ (selected : Option Nat) (ad2 : AssignmentData),
      (selected = none ∨ ad2.technician = "" ∨ ad2.tasks = "" ∨ ad2.duration = none) →
      handleAssignTechnician s newTaskId selected ad2 = s) := by
  have hts : ¬(ad.technician = "" ∨ ad.tasks = "") := by
    rintro (h | h)
    · exact hT h
    · exact htk h
  refine ⟨?_, ?_, ?_⟩
  · unfold handleAssignTechnician
    rw [hd]
    dsimp only
    rw [if_neg hts]
    rfl
  · intro a ha haid
    unfold handleAssignTechnician at ha
    rw [hd] at ha
    dsimp only at ha
    rw [if_neg hts] at ha
    have ha2 : a ∈ (updateAppointmentStatus s appointmentId .approved
        (some ⟨ad.technician, ad.adminNotes, "", 2⟩)).appointments := ha
    simp only [updateAppointmentStatus, List.mem_map] at ha2
    obtain ⟨a0, ha0, rfl⟩ := ha2
    by_cases h : a0.id = appointmentId
    · rw [if_pos h]
      have hf := applyUpdateData_fields .approved ⟨ad.technician, ad.adminNotes, "", 2⟩ a0
        hT (by norm_num)
      exact ⟨applyUpdateData_status _ _ _, hf.1, hf.2⟩
    · rw [if_neg h] at haid
      exact absurd haid h
  · intro selected ad2 hmiss
    cases selected with
    | none =>
      cases hdur : ad2.duration with
      | none => unfold handleAssignTechnician; rw [hdur]
      | some q => unfold handleAssignTechnician; rw [hdur]
    | some i =>
      cases hdur : ad2.duration with
      | none => unfold handleAssignTechnician; rw [hdur]
      | some q =>
        unfold handleAssignTechnician
        rw [hdur]
        dsimp only
        have hor : ad2.technician = "" ∨ ad2.tasks = "" := by
          rcases hmiss with h | h | h | h
          · exact absurd h (by simp)
          · exact Or.inl h
          · exact Or.inr h
          · rw [hdur] at h; exact absurd h (by simp)
        rw [if_pos hor]

/-- C8 witness: the concrete assignment of technician "techT" with a
2-hour task to the single pending appointment. -/
theorem c8_assign_two_hours_witness :
    ((handleAssignTechnician onePendingStore 7 (some 1)
        ⟨"techT", "fix brakes", some 2, ""⟩).tasks =
      onePendingStore.tasks ++ [{ id := 7
                                  appointment_id := 1
                                  technician_id := "techT"
                                  task_description := "fix brakes"
                                  estimated_duration_hours := 2
                                  status := .assigned }]) ∧
    (∀ a ∈ (handleAssignTechnician onePendingStore 7 (some 1)
        ⟨"techT", "fix brakes", some 2, ""⟩).appointments,
      a.id = 1 →
        a.status = .approved ∧ a.technician_id = some "techT" ∧
          a.estimated_duration_hours = some 2) ∧
    (∀ (selected : Option Nat) (ad2 : AssignmentData),
      (selected = none ∨ ad2.technician = "" ∨ ad2.tasks = "" ∨ ad2.duration = none) →
      handleAssignTechnician onePendingStore 7 selected ad2 = onePendingStore) :=
  c8_assign_two_hours onePendingStore 7 1 ⟨"techT", "fix brakes", some 2, ""⟩
    (by decide) (by decide) rfl

/-- C10: The preferred-technician field has no influence on the booking:
two runs differing only in it produce identical results, and the insert
carries no technician, so any created row has `technician_id = none`. -/
theorem c10_preferred_technician_immaterial (s : Store) (currentYear : Int)
    (userId : String) (newId : Nat) (f : BookingForm) (t1 t2 : String) :
    AppointmentBookingAuto.handleSubmit s currentYear userId newId
        { f with preferredTechnician := t1 } =
      AppointmentBookingAuto.handleSubmit s currentYear userId newId
        { f with preferredTechnician := t2 } ∧
    ((AppointmentBookingAuto.handleSubmit s currentYear userId newId f).2.appointments =
        s.appointments ∨
      ∃ r, (AppointmentBookingAuto.handleSubmit s currentYear userId newId f).2.appointments =
          s.appointments ++ [r] ∧ r.technician_id = none) := by
  constructor
  · rfl
  · unfold AppointmentBookingAuto.handleSubmit
    by_cases hv : AppointmentBookingAuto.validateForm currentYear f = true
    · rw [if_pos hv]
      exact Or.inr ⟨_, rfl, rfl⟩
    · rw [if_neg hv]
      exact Or.inl rfl
